import Mathlib

/-!
Verification of the MedGuardian report / model-loading subsystem.

This file gives a shallow embedding, in Lean 4, of the pure logic of
`src/report.py` (the range table, the key-rename table, `check_flag`, and
the result-row construction of `generate_pdf_report`) and of `src/app.py`
(`_is_probable_pickle`, `_safe_load`, `safe_predict_proba`), together with
theorems settling the stated claims about that code.

Python dictionaries are modelled as association lists in insertion order
(keys unique), and Python exceptions as explicit `Except` / result values.
-/

namespace MedGuardian

/-! ## Python string primitives used by `report.py` -/

/-- The whitespace characters stripped by Python's `str.strip()`. -/
def pyWhitespace : List Char := [' ', '\t', '\n', '\r', '\x0b', '\x0c']

/-- Embedding of Python `str.strip()`: drop leading and trailing whitespace. -/
def pyStrip (s : String) : String :=
  String.mk (((s.toList.dropWhile (· ∈ pyWhitespace)).reverse.dropWhile
      (· ∈ pyWhitespace)).reverse)

/-- Embedding of Python `str.lower()` (ASCII case, all data here is ASCII). -/
def pyLower (s : String) : String :=
  String.mk (s.toList.map Char.toLower)

/-- Numeric value of a nonempty digit list, most significant first. -/
def digitsVal (cs : List Char) : Nat :=
  cs.foldl (fun a c => a * 10 + (c.toNat - 48)) 0

/-- `cs` is a nonempty run of decimal digits. -/
def allDigits (cs : List Char) : Bool :=
  !cs.isEmpty && cs.all Char.isDigit

/-- Embedding of Python `float(s)` on the literal forms occurring in this
program: an optional sign, then digits with an optional decimal point
(`"250"`, `"18.5"`, `"1."`, `".5"`).  Anything else (in particular the empty
string) fails, modelling the `ValueError` that `float` raises; exotic forms
(exponents, `inf`, `nan`, underscores) are not modelled, the program never
produces them in the positions where `float` is applied. -/
def pyFloat (s : String) : Option Rat :=
  let cs := s.toList
  let signed : Bool × List Char :=
    match cs with
    | '-' :: r => (true, r)
    | '+' :: r => (false, r)
    | r => (false, r)
  let mag : Option Rat :=
    match signed.2.splitOn '.' with
    | [intPart] =>
        if allDigits intPart then some (digitsVal intPart : Rat) else none
    | [intPart, fracPart] =>
        if (intPart.all Char.isDigit && fracPart.all Char.isDigit)
            && !(intPart.isEmpty && fracPart.isEmpty) then
          some ((digitsVal intPart : Rat)
            + (digitsVal fracPart : Rat) / ((10 : Rat) ^ fracPart.length))
        else none
    | _ => none
  mag.map (fun m => if signed.1 then -m else m)

/-- Embedding of the Python substring test `pat in s` for the
single-character patterns (`"<"`, `"-"`) this program uses. -/
def containsChar (s : String) (c : Char) : Bool :=
  s.toList.contains c

/-- Embedding of Python `s.replace(pat, "")` for a single-character
pattern: every occurrence of the character is removed. -/
def pyRemoveAll (s : String) (c : Char) : String :=
  String.mk (s.toList.filter (fun x => x ≠ c))

/-- Embedding of Python `s.split(sep)` for a single-character separator. -/
def pySplit (s : String) (c : Char) : List String :=
  (s.toList.splitOn c).map String.mk

/-! ## Python dicts as insertion-ordered association lists -/

/-- Lookup in an insertion-ordered association list (Python `d[k]` /
`d.get(k)`): the value at the first matching key. -/
def dlookup {α : Type _} : List (String × α) → String → Option α
  | [], _ => none
  | p :: rest, k => if p.1 = k then some p.2 else dlookup rest k

/-- Python dict assignment `d[k] = v`: overwrite in place if the key is
present (keeping its position), otherwise append at the end. -/
def dinsert {α : Type _} : List (String × α) → String → α → List (String × α)
  | [], k, v => [(k, v)]
  | p :: rest, k, v =>
      if p.1 = k then (k, v) :: rest else p :: dinsert rest k v

/-- The keys of a dict, in insertion order. -/
def dkeys {α : Type _} (l : List (String × α)) : List String :=
  l.map Prod.fst

/-! ## The tables of `report.py` -/

/-- `normal_ranges` of `src/report.py` (lines 10-53), in declaration order. -/
def normal_ranges : List (String × String) := [
  ("Chest Pain Type", "0 - 3"),
  ("Resting Blood Pressure", "90 - 120"),
  ("Cholesterol", "< 200"),
  ("Fasting Blood Sugar", "< 100"),
  ("Resting ECG", "0 - 2"),
  ("Max Heart Rate", "60 - 100"),
  ("Exercise Induced Angina", "No"),
  ("ST Depression", "0 - 1"),
  ("ST Slope", "0 - 2"),
  ("Major Vessels Colored", "0 - 1"),
  ("Thalassemia", "0 - 1"),
  ("BMI", "18.5 - 24.9"),
  ("Blood Glucose", "70 - 99"),
  ("HbA1c", "4 - 5.6"),
  ("Hypertension", "No"),
  ("Blood Pressure", "90 - 120"),
  ("Specific Gravity", "1.005 - 1.030"),
  ("Albumin", "0 - 1"),
  ("Sugar", "0 - 1"),
  ("Red Blood Cells", "Normal"),
  ("Pus Cell", "Normal"),
  ("Pus Cell Clumps", "No"),
  ("Bacteria", "No"),
  ("Blood Glucose Random", "70 - 140"),
  ("Blood Urea", "7 - 20"),
  ("Serum Creatinine", "0.6 - 1.2"),
  ("Sodium", "135 - 145"),
  ("Potassium", "3.5 - 5.0"),
  ("Haemoglobin", "12 - 17"),
  ("Packed Cell Volume", "38 - 52"),
  ("White Blood Cell Count", "4000 - 11000"),
  ("Red Blood Cell Count", "4.5 - 6.0"),
  ("Diabetes Mellitus", "-"),
  ("Coronary Artery Disease", "-"),
  ("Appetite", "-"),
  ("Peda Edema", "-"),
  ("Anaemia", "-")]

/-- `rename_keys` of `src/report.py` (lines 56-100), in declaration order. -/
def rename_keys : List (String × String) := [
  ("cp", "Chest Pain Type"),
  ("restbps", "Resting Blood Pressure"),
  ("chol", "Cholesterol"),
  ("fbs", "Fasting Blood Sugar"),
  ("restecg", "Resting ECG"),
  ("thalach", "Max Heart Rate"),
  ("exang", "Exercise Induced Angina"),
  ("oldpeak", "ST Depression"),
  ("slope", "ST Slope"),
  ("ca", "Major Vessels Colored"),
  ("thal", "Thalassemia"),
  ("bmi", "BMI"),
  ("glucose", "Blood Glucose"),
  ("hba", "HbA1c"),
  ("hyt", "Hypertension"),
  ("bp", "Blood Pressure"),
  ("sg", "Specific Gravity"),
  ("al", "Albumin"),
  ("su", "Sugar"),
  ("red_blood_cells", "Red Blood Cells"),
  ("pc", "Pus Cell"),
  ("pcc", "Pus Cell Clumps"),
  ("ba", "Bacteria"),
  ("bgr", "Blood Glucose Random"),
  ("bu", "Blood Urea"),
  ("sc", "Serum Creatinine"),
  ("sod", "Sodium"),
  ("pot", "Potassium"),
  ("hemo", "Haemoglobin"),
  ("pcv", "Packed Cell Volume"),
  ("wc", "White Blood Cell Count"),
  ("rc", "Red Blood Cell Count"),
  ("htn", "Hypertension"),
  ("dm", "Diabetes Mellitus"),
  ("cad", "Coronary Artery Disease"),
  ("appet", "Appetite"),
  ("pe", "Peda Edema"),
  ("ane", "Anaemia")]

/-- The per-key canonicalisation applied by `generate_pdf_report`
(`src/report.py` line 184): `new_k = rename_keys.get(k, k)`. -/
def canonKey (k : String) : String :=
  (dlookup rename_keys k).getD k

/-- The canonicalised dict `fixed` built by `generate_pdf_report`
(`src/report.py` lines 181-185): iterate the input mapping in order and
assign `fixed[rename_keys.get(k, k)] = v`.  A value is `Option String`:
`none` models Python `None`, `some s` a value whose `str()` form is `s`. -/
def buildFixed {α : Type _} (data : List (String × α)) : List (String × α) :=
  data.foldl (fun acc kv => dinsert acc (canonKey kv.1) kv.2) []

/-! ## `check_flag` (`src/report.py` lines 103-146) -/

/-- The categorical strings the flagger maps to `"High"` (line 115). -/
def highStrings : List String := ["yes", "poor", "abnormal", "high", "true", "1"]

/-- The categorical strings the flagger maps to `"Normal"` (line 117). -/
def normalStrings : List String := ["no", "good", "normal", "false", "0"]

/-- Embedding of `check_flag(param, value)`.  The `value` argument is the
`str()` rendering of the Python value (`none` for Python `None`).  Failures
of the inner `float(...)` calls return `"Normal"` exactly where the source's
`except` handlers do, and a failure parsing the range bounds themselves is
the outer `except Exception: return "Normal"`. -/
def check_flag (param : String) (value : Option String) : String :=
  match value with
  | none => "Normal"
  | some raw =>
    let s := pyStrip raw
    if s = "" then "Normal"
    else
      let low_s := pyLower s
      if low_s ∈ highStrings then "High"
      else if low_s ∈ normalStrings then "Normal"
      else
        match dlookup normal_ranges param with
        | none => "Normal"
        | some rg =>
          if containsChar rg '<' then
            match pyFloat (pyStrip (pyRemoveAll rg '<')) with
            | none => "Normal"
            | some limit =>
              match pyFloat s with
              | none => "Normal"
              | some v => if v > limit then "High" else "Normal"
          else if containsChar rg '-' then
            match pySplit rg '-' with
            | [a, b] =>
              match pyFloat (pyStrip a), pyFloat (pyStrip b) with
              | some low, some high =>
                  match pyFloat s with
                  | none => "Normal"
                  | some v =>
                      if v < low then "Low"
                      else if v > high then "High"
                      else "Normal"
              | _, _ => "Normal"
            | _ => "Normal"
          else "Normal"

/-! ## Result rows of `generate_pdf_report` (`src/report.py` lines 250-256) -/

/-- Embedding of the `s(val)` cell formatter of `src/report.py` lines
161-169 on already-rendered values: `None` displays as `"-"`. -/
def displayVal (v : Option String) : String :=
  match v with
  | none => "-"
  | some s => s

/-- The data rows of the results table: `generate_pdf_report` walks the
canonicalised dict `fixed` in order and keeps exactly the keys present in
`normal_ranges`, each contributing the row
`[key, s(val), normal_ranges.get(key, "-"), check_flag(key, val)]`. -/
def resultRows : List (String × Option String) → List (List String)
  | [] => []
  | kv :: rest =>
      if (dlookup normal_ranges kv.1).isSome then
        [kv.1, displayVal kv.2, (dlookup normal_ranges kv.1).getD "-",
          check_flag kv.1 kv.2] :: resultRows rest
      else resultRows rest

/-- Position of a canonical name in the declaration order of
`normal_ranges`. -/
def vocabIndex (k : String) : Nat :=
  (dkeys normal_ranges).findIdx (fun n => n = k)

/-! ## `_is_probable_pickle` (`src/app.py` lines 135-152)

A file is its byte content, a `List Nat`; `os.path.getsize` is its length
and `f.read(4)` its first four bytes. -/

/-- Embedding of `_is_probable_pickle(path)` on the file's byte content:
reject files under 100 bytes; accept a head starting with one of the binary
pickle/joblib bytes `0x80`, `0x93`, `0x01`; reject a head starting with one
of the text signatures `<!DO`, `{`, `<htm`, `<?xm`; accept everything
else. -/
def is_probable_pickle (content : List Nat) : Bool :=
  let sz := content.length
  if sz < 100 then false
  else
    let head := content.take 4
    if [0x80].isPrefixOf head || [0x93].isPrefixOf head
        || [0x01].isPrefixOf head then true
    else if [0x3c, 0x21, 0x44, 0x4f].isPrefixOf head    -- b"<!DO"
        || [0x7b].isPrefixOf head                       -- b"\x7b"  (opening brace)
        || [0x3c, 0x68, 0x74, 0x6d].isPrefixOf head     -- b"<htm"
        || [0x3c, 0x3f, 0x78, 0x6d].isPrefixOf head then false  -- b"<?xm"
    else true

/-- The file's head carries one of the four text/markup signatures that
`_is_probable_pickle` rejects. -/
def markupSig (content : List Nat) : Bool :=
  [0x3c, 0x21, 0x44, 0x4f].isPrefixOf (content.take 4)
    || [0x7b].isPrefixOf (content.take 4)
    || [0x3c, 0x68, 0x74, 0x6d].isPrefixOf (content.take 4)
    || [0x3c, 0x3f, 0x78, 0x6d].isPrefixOf (content.take 4)

/-! ## `_safe_load` (`src/app.py` lines 154-175)

The two deserialisers are abstracted by their outcome on the given file:
`Except String α` (`.ok m` a loaded object, `.error msg` the exception
message).  Python 3 clears an `except E as n:` binding when its handler
exits (the handler is compiled with a trailing `del n`), so the embedding
threads the binding of `e_job` explicitly: it is in scope only inside the
first handler, and reading it afterwards raises `NameError`. -/

/-- Outcome of `_safe_load`. -/
inductive LoadResult (α : Type _) where
  | ok (m : α)
  | fileNotFound
  | invalidFile
  | runtimeError (msg : String)
  | nameError (unbound : String)
  deriving Repr, DecidableEq

/-- Embedding of `_safe_load(path)`.  `fileExists` and `probablePickle` are
the outcomes of the two guard checks; `jobRes` and `pickleRes` the outcomes
of `joblib.load` and `pickle.load` on the file. -/
def safe_load {α : Type _} (fileExists probablePickle : Bool)
    (jobRes pickleRes : Except String α) : LoadResult α :=
  if !fileExists then .fileNotFound
  else if !probablePickle then .invalidFile
  else
    match jobRes with
    | .ok m => .ok m
    | .error _jobMsg =>
      -- The first handler binds `e_job` to the joblib exception, prints,
      -- and exits; Python 3 then executes the implicit `del e_job`, so no
      -- `e_job` binding survives past the handler:
      let e_job : Option String := none
      match pickleRes with
      | .ok m => .ok m
      | .error e_pickle =>
        -- second handler: the f-string of the `raise` statement reads
        -- `e_job`, which is no longer bound.
        match e_job with
        | some ej =>
            .runtimeError ("Failed to load model file: joblib error: " ++ ej
              ++ "; pickle error: " ++ e_pickle)
        | none => .nameError "e_job"

/-! ## `safe_predict_proba` (`src/app.py` lines 215-231)

A numpy value returned by a model method is 1-d or 2-d (`NpArray`); the
model itself is abstracted by the outcome of its two optional methods on
the given feature matrix: `none` when the attribute is absent,
`some (.error e)` when calling it raises, `some (.ok a)` when it returns
the array `a`.  A method output that is not an array at all also raises
(at `.ndim`) and is covered by the `.error` outcome. -/

/-- A numpy array of rationals: 1-d or 2-d (rows). -/
inductive NpArray where
  | one (xs : List Rat)
  | two (rows : List (List Rat))
  deriving Repr, DecidableEq

/-- `a.ndim`. -/
def NpArray.ndim : NpArray → Nat
  | .one _ => 1
  | .two _ => 2

/-- `a.shape[1]` of a (rectangular) 2-d array; unused for 1-d arrays, whose
`ndim` guard fails first. -/
def NpArray.shape1 : NpArray → Nat
  | .one _ => 0
  | .two rows => (rows.headD []).length

/-- `a[:, j]`: the `j`-th column.  On a 1-d array, or when a row is too
short, numpy raises `IndexError`, modelled by `none`. -/
def NpArray.colIdx : NpArray → Nat → Option (List Rat)
  | .one _, _ => none
  | .two rows, j => rows.mapM (fun r => r.get? j)

/-- `np.ravel(a)`: flatten to 1-d. -/
def NpArray.ravel : NpArray → List Rat
  | .one xs => xs
  | .two rows => rows.flatten

/-- A model, abstracted by what its two optional methods do on the given
feature matrix. -/
structure PyModel where
  predictProbaRes : Option (Except String NpArray)
  decisionFunctionRes : Option (Except String NpArray)
  deriving Repr

/-- Non-`None` values `safe_predict_proba` can return: `arr c` is the
ndarray column `proba[:, j]`, returned unchanged; `sigmoids ms` is the
Python list `[sigmoid(v) for v in np.ravel(df)]`, recorded by its list of
margins `ms` (the real value it denotes is `ms.map sigmoid`, see
`probaValue`). -/
inductive ProbaVal where
  | arr (xs : List Rat)
  | sigmoids (margins : List Rat)
  deriving Repr, DecidableEq

/-- The body of the `try:` block of `safe_predict_proba`: `.error` is an
exception escaping the body, `.ok none` a `return None` (or falling off the
end), `.ok (some v)` a returned value. -/
def proba_body (m : Option PyModel) : Except String (Option ProbaVal) :=
  match m with
  | none => .ok none
  | some mo =>
    match mo.predictProbaRes with
    | some callRes =>
      match callRes with
      | .error e => .error e
      | .ok proba =>
        if proba.ndim = 2 && proba.shape1 ≥ 2 then
          match proba.colIdx 1 with
          | some c => .ok (some (.arr c))
          | none => .error "IndexError"
        else
          match proba.colIdx 0 with
          | some c => .ok (some (.arr c))
          | none => .error "IndexError"
    | none =>
      match mo.decisionFunctionRes with
      | some callRes =>
        match callRes with
        | .error e => .error e
        | .ok df => .ok (some (.sigmoids df.ravel))
      | none => .ok none

/-- Embedding of `safe_predict_proba(m, X)`: the body wrapped in
`except Exception: ... return None`. -/
def safe_predict_proba (m : Option PyModel) : Option ProbaVal :=
  match proba_body m with
  | .ok r => r
  | .error _ => none

/-- The logistic squashing function `1/(1+e^-x)` of `src/app.py`
line 227. -/
noncomputable def sigmoid (x : ℝ) : ℝ := 1 / (1 + Real.exp (-x))

/-- The real numbers a `ProbaVal` denotes: an `arr` column denotes its own
entries; `sigmoids ms` denotes the margins passed through `sigmoid`. -/
noncomputable def probaValue : ProbaVal → List ℝ
  | .arr xs => xs.map (fun v => (v : ℝ))
  | .sigmoids ms => ms.map (fun v => sigmoid (v : ℝ))

/-! ## Helper lemmas -/

/-- A successful `dlookup` returns one of the stored values. -/
lemma dlookup_mem_values {α : Type _} (l : List (String × α)) (k : String) (v : α)
    (h : dlookup l k = some v) : v ∈ l.map Prod.snd := by
  induction l with
  | nil => simp [dlookup] at h
  | cons p rest ih =>
    by_cases hp : p.1 = k
    · simp [dlookup, hp] at h
      simp [← h]
    · simp [dlookup, hp] at h
      simp [ih h]

/-- No value of `rename_keys` (no canonical display name) is itself a key of
`rename_keys`. -/
lemma rename_values_not_keys :
    rename_keys.all (fun p => (dlookup rename_keys p.2).isNone) = true := by
  decide

/-- `pyFloat` rejects the empty string (Python `float("")` raises). -/
lemma pyFloat_empty : pyFloat "" = none := rfl

/-- CLAIM C8: the Canonicalizer is idempotent: renaming an already renamed
key is a no-op, because no canonical display name is itself a raw key of
the rename table, and unmapped keys pass through unchanged. -/
theorem canonKey_idempotent (k : String) : canonKey (canonKey k) = canonKey k := by
  unfold canonKey
  cases h : dlookup rename_keys k with
  | none => simp [h]
  | some v =>
    simp only [Option.getD_some]
    have hv : v ∈ rename_keys.map Prod.snd := dlookup_mem_values _ _ _ h
    obtain ⟨p, hp, hpv⟩ := List.mem_map.mp hv
    have hall := List.all_eq_true.mp rename_values_not_keys p hp
    rw [hpv] at hall
    rw [Option.isNone_iff_eq_none.mp hall]
    rfl

/-- CLAIM C9: `check_flag` maps a `None` value, and any empty or
whitespace-only string value, to `"Normal"`, for every parameter, before
the categorical heuristic and before any range lookup. -/
theorem check_flag_none_blank_normal :
    (∀ param, check_flag param none = "Normal")
    ∧ (∀ param s, pyStrip s = "" → check_flag param (some s) = "Normal") := by
  constructor
  · intro param
    rfl
  · intro param s h
    simp [check_flag, h]

/-- Witness for C9 at the whitespace-only value `"  "` and a parameter with
a registered numeric range. -/
theorem check_flag_none_blank_normal_witness :
    pyStrip "  " = "" ∧ check_flag "Cholesterol" (some "  ") = "Normal" :=
  ⟨by decide, check_flag_none_blank_normal.2 "Cholesterol" "  " (by decide)⟩

/-- CLAIM C3: for every parameter (in particular those with a numeric range
registered) and every letter-casing of the value `"Yes"`, `check_flag`
returns `"High"`: the categorical heuristic fires before any numeric
lookup. -/
theorem check_flag_yes_precedes_ranges (param y : String)
    (h : pyLower (pyStrip y) = "yes") :
    check_flag param (some y) = "High" := by
  have hne : pyStrip y ≠ "" := by
    intro he
    rw [he] at h
    exact absurd h (by decide)
  simp [check_flag, hne, h, highStrings]

/-- Witness for C3 at the parameter `"Cholesterol"`, which has the numeric
range `"< 200"` registered, and the mixed-case value `"yEs"`. -/
theorem check_flag_yes_precedes_ranges_witness :
    pyLower (pyStrip "yEs") = "yes"
    ∧ (dlookup normal_ranges "Cholesterol" = some "< 200")
    ∧ check_flag "Cholesterol" (some "yEs") = "High" :=
  ⟨by decide, by decide, check_flag_yes_precedes_ranges "Cholesterol" "yEs" (by decide)⟩

/-- Destructuring a successful `isPrefixOf` with a cons pattern. -/
lemma isPrefixOf_cons_elim {a : Nat} {l t : List Nat}
    (h : (a :: l).isPrefixOf t = true) :
    ∃ t', t = a :: t' ∧ l.isPrefixOf t' = true := by
  cases t with
  | nil => simp [List.isPrefixOf] at h
  | cons b t' =>
    simp only [List.isPrefixOf, Bool.and_eq_true, beq_iff_eq] at h
    exact ⟨t', by simp [h.1], h.2⟩

/-- `_is_probable_pickle` on a file that passes the size check, written
with its two header tests spelt out. -/
lemma is_probable_pickle_eq (c : List Nat) (hlen : ¬ c.length < 100) :
    is_probable_pickle c
      = if [0x80].isPrefixOf (c.take 4) || [0x93].isPrefixOf (c.take 4)
            || [0x01].isPrefixOf (c.take 4) then true
        else if markupSig c then false else true := by
  simp [is_probable_pickle, markupSig, hlen]

/-- CLAIM C7: the Sniffer `_is_probable_pickle` rejects every file smaller
than the 100-byte threshold, and rejects every file whose 4-byte header
carries one of the markup/JSON signatures (`<!DO`, an opening brace,
`<htm`, `<?xm`), whatever the file's size. -/
theorem is_probable_pickle_implausible :
    (∀ c : List Nat, c.length < 100 → is_probable_pickle c = false)
    ∧ (∀ c : List Nat, markupSig c = true → is_probable_pickle c = false) := by
  constructor
  · intro c h
    simp [is_probable_pickle, h]
  · intro c hm
    by_cases hlen : c.length < 100
    · simp [is_probable_pickle, hlen]
    · obtain ⟨t, hb⟩ : ∃ t, c.take 4 = 0x3c :: t ∨ c.take 4 = 0x7b :: t := by
        simp only [markupSig, Bool.or_eq_true, or_assoc] at hm
        rcases hm with h | h | h | h
        · obtain ⟨t, ht, -⟩ := isPrefixOf_cons_elim h
          exact ⟨t, Or.inl ht⟩
        · obtain ⟨t, ht, -⟩ := isPrefixOf_cons_elim h
          exact ⟨t, Or.inr ht⟩
        · obtain ⟨t, ht, -⟩ := isPrefixOf_cons_elim h
          exact ⟨t, Or.inl ht⟩
        · obtain ⟨t, ht, -⟩ := isPrefixOf_cons_elim h
          exact ⟨t, Or.inl ht⟩
      rw [is_probable_pickle_eq c hlen, hm]
      rcases hb with hb | hb <;> rw [hb] <;> simp [List.isPrefixOf]

/-- Witness for C7: a 10-byte file is rejected for size, and a 121-byte
file opening with a brace is rejected for its signature. -/
theorem is_probable_pickle_implausible_witness :
    (List.replicate 10 0).length < 100
    ∧ is_probable_pickle (List.replicate 10 0) = false
    ∧ markupSig (0x7b :: List.replicate 120 7) = true
    ∧ is_probable_pickle (0x7b :: List.replicate 120 7) = false :=
  ⟨by decide, is_probable_pickle_implausible.1 _ (by decide),
    by decide, is_probable_pickle_implausible.2 _ (by decide)⟩

/-- CLAIM C1 (refuting): when both deserialisers fail, `_safe_load` does
not raise the composite `RuntimeError`: the `e_job` binding was cleared
when its handler exited, so evaluating the error f-string raises
`NameError: name 'e_job' is not defined`, an error mentioning neither
underlying cause. -/
theorem safe_load_both_fail_nameError (α : Type) (ej ep : String) :
    @safe_load α true true (.error ej) (.error ep) = .nameError "e_job"
    ∧ ∀ msg, @safe_load α true true (.error ej) (.error ep) ≠ .runtimeError msg := by
  refine ⟨rfl, ?_⟩
  intro msg hmsg
  rw [show @safe_load α true true (.error ej) (.error ep)
      = .nameError "e_job" from rfl] at hmsg
  exact LoadResult.noConfusion hmsg

/-- CLAIM C5: `safe_predict_proba` extracts probabilities in the fixed
priority order: a direct `predict_proba` output is used, column 1 when it
is 2-d with at least two columns (that column returned unchanged), column 0
when single-column; otherwise `decision_function` margins are squashed with
the logistic function (whose value at 0 is exactly 1/2); otherwise `None`
— never a fabricated number. -/
theorem safe_predict_proba_priority :
    (∀ dfn rows c, 2 ≤ (rows.headD []).length →
        (NpArray.two rows).colIdx 1 = some c →
        safe_predict_proba (some ⟨some (.ok (.two rows)), dfn⟩) = some (.arr c))
    ∧ (∀ dfn rows c, (rows.headD []).length = 1 →
        (NpArray.two rows).colIdx 0 = some c →
        safe_predict_proba (some ⟨some (.ok (.two rows)), dfn⟩) = some (.arr c))
    ∧ (∀ df, safe_predict_proba (some ⟨none, some (.ok df)⟩)
        = some (.sigmoids df.ravel))
    ∧ (∀ ms, probaValue (.sigmoids ms) = ms.map (fun v => sigmoid (v : ℝ)))
    ∧ sigmoid 0 = 1 / 2
    ∧ safe_predict_proba (some ⟨none, none⟩) = none := by
  refine ⟨?_, ?_, ?_, fun ms => rfl, ?_, rfl⟩
  · intro dfn rows c h2 hc
    have h2' : 2 ≤ (rows.head?.getD []).length := by
      cases rows <;> exact h2
    simp [safe_predict_proba, proba_body, NpArray.ndim, NpArray.shape1, h2', hc]
  · intro dfn rows c h1 hc
    have h1' : (rows.head?.getD []).length = 1 := by
      cases rows <;> exact h1
    simp [safe_predict_proba, proba_body, NpArray.ndim, NpArray.shape1, h1', hc]
  · intro df
    rfl
  · simp [sigmoid, Real.exp_zero]
    norm_num

/-- Witness for C5: a two-column distribution yields column 1 unchanged,
and a single-column one yields column 0. -/
theorem safe_predict_proba_priority_witness :
    safe_predict_proba (some ⟨some (.ok (.two [[1, 3], [2, 5]])), none⟩)
      = some (.arr [3, 5])
    ∧ safe_predict_proba (some ⟨some (.ok (.two [[7]])), none⟩)
      = some (.arr [7]) :=
  ⟨safe_predict_proba_priority.1 none [[1, 3], [2, 5]] [3, 5] (by decide) (by decide),
    safe_predict_proba_priority.2.1 none [[7]] [7] (by decide) (by decide)⟩

/-- CLAIM C6: `safe_predict_proba` is total: an absent model, a raising
method, and an output of unexpected shape are all converted to `None`, and
any exception escaping the body is caught and converted to `None`. -/
theorem safe_predict_proba_total :
    (∀ m e, proba_body m = Except.error e → safe_predict_proba m = none)
    ∧ safe_predict_proba none = none
    ∧ (∀ e dfn, safe_predict_proba (some ⟨some (.error e), dfn⟩) = none)
    ∧ (∀ e, safe_predict_proba (some ⟨none, some (.error e)⟩) = none)
    ∧ (∀ xs dfn, safe_predict_proba (some ⟨some (.ok (.one xs)), dfn⟩) = none) := by
  refine ⟨?_, rfl, fun e dfn => rfl, fun e => rfl, fun xs dfn => rfl⟩
  intro m e h
  simp [safe_predict_proba, h]

/-- Witness for C6 at a model whose probability method raises. -/
theorem safe_predict_proba_total_witness :
    proba_body (some ⟨some (.error "boom"), none⟩) = Except.error "boom"
    ∧ safe_predict_proba (some ⟨some (.error "boom"), none⟩) = none :=
  ⟨rfl, safe_predict_proba_total.1 (some ⟨some (.error "boom"), none⟩) "boom" rfl⟩

/-- CLAIM C4: for a non-categorical numeric value, `check_flag` implements
the upper-bound rule for a `"< X"` range (`High` above the limit, otherwise
`Normal`) and the interval rule for a `"low - high"` range (`Low` below,
`High` above, otherwise `Normal`); in particular `250` against `"< 200"` is
`High`, `150` is `Normal`, and against `"90 - 120"` the value `30` is
`Low`, `200` is `High`, `100` is `Normal`. -/
theorem check_flag_numeric_ranges :
    (∀ param rg limit y v,
        dlookup normal_ranges param = some rg →
        containsChar rg '<' = true →
        pyFloat (pyStrip (pyRemoveAll rg '<')) = some limit →
        pyLower (pyStrip y) ∉ highStrings →
        pyLower (pyStrip y) ∉ normalStrings →
        pyFloat (pyStrip y) = some v →
        check_flag param (some y) = if v > limit then "High" else "Normal")
    ∧ (∀ param rg a b low high y v,
        dlookup normal_ranges param = some rg →
        containsChar rg '<' = false →
        pySplit rg '-' = [a, b] →
        pyFloat (pyStrip a) = some low →
        pyFloat (pyStrip b) = some high →
        pyLower (pyStrip y) ∉ highStrings →
        pyLower (pyStrip y) ∉ normalStrings →
        pyFloat (pyStrip y) = some v →
        check_flag param (some y)
          = if v < low then "Low" else if v > high then "High" else "Normal")
    ∧ check_flag "Cholesterol" (some "250") = "High"
    ∧ check_flag "Cholesterol" (some "150") = "Normal"
    ∧ check_flag "Resting Blood Pressure" (some "30") = "Low"
    ∧ check_flag "Resting Blood Pressure" (some "200") = "High"
    ∧ check_flag "Resting Blood Pressure" (some "100") = "Normal" := by
  refine ⟨?_, ?_, by decide, by decide, by decide, by decide, by decide⟩
  · intro param rg limit y v hlk hct hlim h1 h2 hv
    have hne : pyStrip y ≠ "" := by
      intro he
      rw [he, pyFloat_empty] at hv
      exact Option.noConfusion hv
    simp [check_flag, hne, hlk, hct, hlim, h1, h2, hv]
  · intro param rg a b low high y v hlk hct hsp hla hlb h1 h2 hv
    have hne : pyStrip y ≠ "" := by
      intro he
      rw [he, pyFloat_empty] at hv
      exact Option.noConfusion hv
    have hdash : containsChar rg '-' = true := by
      by_contra hc
      simp only [Bool.not_eq_true, containsChar] at hc
      have hmem : ('-' : Char) ∉ rg.toList := by simpa using hc
      have hone : rg.toList.splitOn '-' = [rg.toList] := by
        rw [List.splitOn]
        exact List.splitOnP_eq_single _ _
          (by intro x hx; simp; intro he; exact absurd (he ▸ hx) hmem)
      have hsingle : pySplit rg '-' = [String.mk rg.toList] := by
        simp only [pySplit]
        rw [hone]
        rfl
      rw [hsp] at hsingle
      exact absurd hsingle (by simp)
    simp [check_flag, hne, hlk, hct, hsp, hdash, hla, hlb, h1, h2, hv]

/-- Witness for C4: both general rules applied at the registered ranges
`"< 200"` (value 250) and `"90 - 120"` (value 30). -/
theorem check_flag_numeric_ranges_witness :
    check_flag "Cholesterol" (some "250") = "High"
    ∧ check_flag "Resting Blood Pressure" (some "30") = "Low" := by
  constructor
  · have h := check_flag_numeric_ranges.1 "Cholesterol" "< 200" 200 "250" 250
      (by decide) (by decide) (by decide) (by decide) (by decide) (by decide)
    rw [h]
    decide
  · have h := check_flag_numeric_ranges.2.1 "Resting Blood Pressure" "90 - 120"
      "90 " " 120" 90 120 "30" 30 (by decide) (by decide) (by decide) (by decide)
      (by decide) (by decide) (by decide) (by decide)
    rw [h]
    decide

/-- CLAIM C2 is false on the code (counterexample): for the input mapping
`[chol ↦ 210, cp ↦ 1]` the compiled rows are `Cholesterol` first and then
`Chest Pain Type`, although `Chest Pain Type` is declared before
`Cholesterol` in `normal_ranges`: row order follows the input mapping, not
the canonical vocabulary. -/
theorem resultRows_not_vocab_order :
    (resultRows (buildFixed [("chol", some "210"), ("cp", some "1")])).map
        (fun r => r.headD "")
      = ["Cholesterol", "Chest Pain Type"]
    ∧ vocabIndex "Chest Pain Type" < vocabIndex "Cholesterol" := by
  constructor
  · decide
  · decide

/-- CLAIM C2 (amended): the rows of the results table appear in the
insertion order of the canonicalized input mapping, filtered to the keys
registered in `normal_ranges` — not in the range table's declaration order
and not alphabetically. -/
theorem resultRows_follow_input_order (data : List (String × Option String)) :
    (resultRows (buildFixed data)).map (fun r => r.headD "")
      = (dkeys (buildFixed data)).filter
          (fun k => (dlookup normal_ranges k).isSome) := by
  generalize buildFixed data = fixed
  induction fixed with
  | nil => rfl
  | cons kv rest ih =>
    simp only [List.headD_eq_head?_getD] at ih
    by_cases h : (dlookup normal_ranges kv.1).isSome <;>
      simp [resultRows, dkeys, h, ih, List.filter_cons]

/-! ## Dict lemmas for the key-collision claim -/

/-- Looking up after an assignment: the assigned key reads back the new
value, every other key is untouched. -/
lemma dlookup_dinsert {α : Type _} (l : List (String × α)) (k K : String) (v : α) :
    dlookup (dinsert l k v) K = if K = k then some v else dlookup l K := by
  induction l with
  | nil =>
    by_cases h : K = k
    · simp [dinsert, dlookup, h]
    · simp [dinsert, dlookup, h, Ne.symm h]
  | cons p rest ih =>
    by_cases hpk : p.1 = k
    · by_cases hK : K = k
      · simp [dinsert, dlookup, hpk, hK]
      · have hp : ¬ p.1 = K := by
          rw [hpk]
          exact Ne.symm hK
        simp [dinsert, dlookup, hpk, hK, hp, Ne.symm hK]
    · by_cases hpK : p.1 = K
      · have hK : ¬ K = k := by
          rw [← hpK]
          exact hpk
        simp [dinsert, dlookup, hpk, hpK, hK]
      · simp [dinsert, dlookup, hpk, hpK, ih]

/-- Assignment only ever adds its own key to the key list. -/
lemma dkeys_dinsert {α : Type _} (l : List (String × α)) (k : String) (v : α) :
    dkeys (dinsert l k v) = if k ∈ dkeys l then dkeys l else dkeys l ++ [k] := by
  induction l with
  | nil => simp [dinsert, dkeys]
  | cons p rest ih =>
    by_cases hpk : p.1 = k
    · simp [dinsert, dkeys, hpk]
    · have hstep : dinsert (p :: rest) k v = p :: dinsert rest k v := by
        simp [dinsert, hpk]
      rw [hstep]
      rw [show dkeys (p :: dinsert rest k v) = p.1 :: dkeys (dinsert rest k v) from rfl]
      rw [show dkeys (p :: rest) = p.1 :: dkeys rest from rfl]
      rw [ih]
      by_cases hm : k ∈ dkeys rest
      · simp [hm, Ne.symm hpk]
      · simp [hm, Ne.symm hpk]

/-- Assignment preserves key uniqueness. -/
lemma nodup_dkeys_dinsert {α : Type _} (l : List (String × α)) (k : String) (v : α)
    (h : (dkeys l).Nodup) : (dkeys (dinsert l k v)).Nodup := by
  rw [dkeys_dinsert]
  by_cases hm : k ∈ dkeys l
  · simp [hm, h]
  · simp [hm, List.nodup_append, h]

/-- Every dict built by `buildFixed` has pairwise distinct keys. -/
lemma nodup_dkeys_buildFixed {α : Type _} (d : List (String × α)) :
    (dkeys (buildFixed d)).Nodup := by
  suffices h : ∀ acc : List (String × α), (dkeys acc).Nodup →
      (dkeys (d.foldl (fun a kv => dinsert a (canonKey kv.1) kv.2) acc)).Nodup by
    exact h [] (by simp [dkeys])
  induction d with
  | nil => intro acc h; exact h
  | cons kv tl ih =>
    intro acc h
    exact ih _ (nodup_dkeys_dinsert _ _ _ h)

/-- A successful lookup means the key is present. -/
lemma mem_dkeys_of_dlookup {α : Type _} (l : List (String × α)) (K : String) (v : α)
    (h : dlookup l K = some v) : K ∈ dkeys l := by
  induction l with
  | nil => simp [dlookup] at h
  | cons p rest ih =>
    by_cases hp : p.1 = K
    · simp [dkeys, hp.symm]
    · simp only [dlookup, hp, if_false] at h
      rw [show dkeys (p :: rest) = p.1 :: dkeys rest from rfl]
      exact List.mem_cons_of_mem _ (ih h)

/-- Reading a key out of the dict built by the canonicalising loop returns
the value of the LAST input entry whose canonicalised key matches. -/
lemma dlookup_buildFixed_foldl {α : Type _} (d : List (String × α))
    (acc : List (String × α)) (K : String) :
    dlookup (d.foldl (fun a kv => dinsert a (canonKey kv.1) kv.2) acc) K
      = d.foldl (fun r kv => if canonKey kv.1 = K then some kv.2 else r)
          (dlookup acc K) := by
  induction d generalizing acc with
  | nil => rfl
  | cons kv tl ih =>
    simp only [List.foldl_cons]
    rw [ih, dlookup_dinsert]
    congr 1
    by_cases h : canonKey kv.1 = K
    · simp [h]
    · rw [if_neg (Ne.symm h), if_neg h]

/-- Entries whose canonicalised key never matches leave the running
last-match accumulator untouched. -/
lemma foldl_lastVal_no_match {α : Type _} (q : List (String × α)) (K : String)
    (acc : Option α) (h : ∀ kv ∈ q, canonKey kv.1 ≠ K) :
    q.foldl (fun r kv => if canonKey kv.1 = K then some kv.2 else r) acc = acc := by
  induction q generalizing acc with
  | nil => rfl
  | cons kv tl ih =>
    simp only [List.foldl_cons]
    rw [if_neg (h kv (by simp))]
    exact ih _ (fun x hx => h x (by simp [hx]))

/-- When a later entry of the input canonicalises to `K` and nothing after
it does, the built dict reads back that later entry's value at `K`. -/
lemma dlookup_buildFixed_last {α : Type _} (p m q : List (String × α))
    (k1 k2 : String) (x y : α) (K : String)
    (hk2 : canonKey k2 = K)
    (hq : ∀ kv ∈ q, canonKey kv.1 ≠ K) :
    dlookup (buildFixed (p ++ (k1, x) :: m ++ (k2, y) :: q)) K = some y := by
  unfold buildFixed
  rw [dlookup_buildFixed_foldl]
  have hsplit : p ++ (k1, x) :: m ++ (k2, y) :: q
      = (p ++ (k1, x) :: m) ++ ((k2, y) :: q) := by simp
  rw [hsplit, List.foldl_append, List.foldl_cons]
  rw [foldl_lastVal_no_match q K _ hq]
  simp [hk2]

/-- A key that reads back successfully occurs exactly once among the built
dict's keys. -/
lemma count_dkeys_buildFixed_eq_one {α : Type _} (d : List (String × α))
    (K : String) (v : α) (h : dlookup (buildFixed d) K = some v) :
    (dkeys (buildFixed d)).count K = 1 :=
  List.count_eq_one_of_mem (nodup_dkeys_buildFixed d)
    (mem_dkeys_of_dlookup _ _ _ h)

/-- CLAIM C10: the rename table is not injective — `"hyt"` and `"htn"` are
distinct raw keys both mapping to `"Hypertension"` — and for any input
containing both (with no later entry renaming to `"Hypertension"`), the
canonicalised dict holds a single `"Hypertension"` entry whose value is the
later raw key's value; the earlier value is silently overwritten. -/
theorem rename_collision_hypertension {α : Type _} (p m q : List (String × α))
    (a b : α) (hq : ∀ kv ∈ q, canonKey kv.1 ≠ "Hypertension") :
    (dlookup (buildFixed (p ++ ("hyt", a) :: m ++ ("htn", b) :: q)) "Hypertension"
        = some b
      ∧ (dkeys (buildFixed (p ++ ("hyt", a) :: m ++ ("htn", b) :: q))).count
          "Hypertension" = 1)
    ∧ (dlookup (buildFixed (p ++ ("htn", b) :: m ++ ("hyt", a) :: q)) "Hypertension"
        = some a
      ∧ (dkeys (buildFixed (p ++ ("htn", b) :: m ++ ("hyt", a) :: q))).count
          "Hypertension" = 1)
    ∧ canonKey "hyt" = "Hypertension" ∧ canonKey "htn" = "Hypertension"
    ∧ ("hyt" : String) ≠ "htn" := by
  have h1 := dlookup_buildFixed_last p m q "hyt" "htn" a b "Hypertension"
    (by decide) hq
  have h2 := dlookup_buildFixed_last p m q "htn" "hyt" b a "Hypertension"
    (by decide) hq
  exact ⟨⟨h1, count_dkeys_buildFixed_eq_one _ _ _ h1⟩,
    ⟨h2, count_dkeys_buildFixed_eq_one _ _ _ h2⟩,
    by decide, by decide, by decide⟩

/-- Witness for C10: with both orders of the two raw keys, the later one's
value wins. -/
theorem rename_collision_hypertension_witness :
    dlookup (buildFixed [("hyt", 1), ("htn", 2)]) "Hypertension" = some 2
    ∧ dlookup (buildFixed [("htn", 2), ("hyt", 1)]) "Hypertension" = some 1 := by
  have h := rename_collision_hypertension ([] : List (String × Nat)) [] [] 1 2
    (by simp)
  exact ⟨h.1.1, h.2.1.1⟩

end MedGuardian
